import Mathlib

/-!
Verification of the `sealed` attribute-macro crate (`src/lib.rs`).

The development shallowly embeds the crate's transformation pipeline:

* `to_snake_case` / `seal_name` — the companion-module name derivation
  (`fn seal_name`, which delegates the casing to `heck::SnakeCase`);
* `parse_sealed_trait` — the trait transformer;
* `parse_sealed_impl` — the impl transformer;
* `parse_sealed` / `sealed` — the dispatch gate and the entry point.

Syntactic items are embedded structurally: identifiers carry their text and
a raw (`r#`) flag, generic parameters are an ordered list of lifetime / type /
const parameters, and everything the transformation never inspects (bodies,
self types, bounds it merely copies, where-clauses) is kept opaque as strings.
Token-level behaviour of the `syn`/`quote` layer that the source relies on is
embedded from those libraries' actual printing rules and documented at each
definition.
-/

set_option autoImplicit false

namespace SealedCrate

/-! ## Identifiers -/

/-- A Rust identifier as `syn`/`proc-macro2` represent it: the bare text plus
whether it was written in raw form (`r#text`). -/
structure Ident where
  text : String
  raw : Bool
  deriving DecidableEq, Repr

/-- Embeds `syn::ext::IdentExt::unraw`: the same identifier with the raw flag
removed. -/
def Ident.unraw (i : Ident) : Ident := ⟨i.text, false⟩

/-- The `Display` rendering of an identifier: raw identifiers print with the
leading marker, plain ones print their text. -/
def Ident.display (i : Ident) : String :=
  if i.raw then "r#" ++ i.text else i.text

/-- The comparison `ident == "kw"` performed by `proc-macro2`: a raw
identifier never equals a bare keyword string. -/
def Ident.eqKeyword (i : Ident) (kw : String) : Bool :=
  !i.raw && i.text == kw

/-! ## Snake-case conversion (`heck` 0.3, `SnakeCase`)

`heck`'s `transform` first segments the input into unicode words; a Rust
identifier (letters, digits, underscores) always forms a single unicode word,
so the embedding runs the per-word scanner directly on the whole character
list.  The scanner walks the characters with one lookahead, tracking whether
the previous cased character was lowercase or uppercase, skips underscores,
splits before an uppercase that follows a lowercase (or digit continuing a
lowercase run), and splits before the final uppercase of an uppercase run
that is followed by a lowercase.  Words are lowercased and joined with
underscores. -/

/-- The scanner mode of `heck`'s word-splitting loop. -/
inductive WordMode where
  | boundary
  | lower
  | upper
  deriving DecidableEq, Repr

/-- Mode after consuming character `c`: cased characters set the mode,
uncased ones (digits) keep it. -/
def wordModeNext (mode : WordMode) (c : Char) : WordMode :=
  if c.isLower then .lower else if c.isUpper then .upper else mode

/-- Embeds `heck`'s word-splitting loop.  `mode` is the scanner mode, `cur` the
characters of the word being accumulated, `words` the words already emitted
(in order). -/
def heckWords : WordMode → List Char → List (List Char) → List Char → List (List Char)
  | _, _, words, [] => words
  | mode, cur, words, c :: rest =>
    if c = '_' then
      heckWords mode cur words rest
    else
      match rest with
      | [] => words ++ [cur ++ [c]]
      | next :: _ =>
        let nextMode := wordModeNext mode c
        if next = '_' ∨ (nextMode = WordMode.lower ∧ next.isUpper) then
          heckWords .boundary [] (words ++ [cur ++ [c]]) rest
        else if mode = WordMode.upper ∧ c.isUpper ∧ next.isLower then
          heckWords .boundary [c] (words ++ [cur]) rest
        else
          heckWords nextMode (cur ++ [c]) words rest

/-- Embeds `heck::SnakeCase::to_snake_case`: split into words, lowercase each word,
join with underscores. -/
def to_snake_case (s : String) : String :=
  String.intercalate "_"
    ((heckWords .boundary [] [] s.data).map fun w => String.mk (w.map Char.toLower))

/-- Embeds `fn seal_name` (`src/lib.rs:102-104`): the companion-module identifier,
built by `format_ident!` as the fixed prefix followed by the snake-cased
input text. -/
def seal_name (s : String) : String :=
  "__seal_" ++ to_snake_case s

/-! ## Generic parameters (`syn::Generics`) -/

/-- Embeds `syn::LifetimeDef`: a lifetime parameter (name stored without the leading
tick) together with its (opaque) lifetime bounds. -/
structure LifetimeDef where
  name : String
  bounds : List String
  deriving DecidableEq, Repr

/-- Embeds `syn::TypeParam`: a type parameter with its (opaque) bounds and optional
(opaque) default. -/
structure TypeParam where
  ident : String
  bounds : List String
  default : Option String
  deriving DecidableEq, Repr

/-- Embeds `syn::ConstParam`: a const parameter with its (opaque) type and optional
(opaque) default. -/
structure ConstParam where
  ident : String
  ty : String
  default : Option String
  deriving DecidableEq, Repr

/-- Embeds `syn::GenericParam`: one entry of a generic parameter list. -/
inductive GenericParam where
  | lt (l : LifetimeDef)
  | ty (t : TypeParam)
  | cst (c : ConstParam)
  deriving DecidableEq, Repr

/-- The identifier of a generic parameter (lifetime name without the tick). -/
def paramIdent : GenericParam → String
  | .lt l => l.name
  | .ty t => t.ident
  | .cst c => c.ident

/-- Whether a parameter is a lifetime. -/
def isLtParam : GenericParam → Bool
  | .lt _ => true
  | _ => false

/-- Whether a parameter is a type parameter. -/
def isTyParam : GenericParam → Bool
  | .ty _ => true
  | _ => false

/-- Whether a parameter is a const parameter. -/
def isCstParam : GenericParam → Bool
  | .cst _ => true
  | _ => false

/-- Embeds `syn::Generics`: the ordered parameter list plus the optional (opaque)
where-clause. -/
structure Generics where
  params : List GenericParam
  where_clause : Option String
  deriving DecidableEq, Repr

/-- Embeds `Generics::lifetimes()`: the lifetime parameters in order. -/
def lifetimeDefs (g : Generics) : List LifetimeDef :=
  g.params.filterMap fun p => match p with
    | .lt l => some l
    | _ => none

/-- Embeds `Generics::type_params()`: the type parameters in order. -/
def type_params (g : Generics) : List TypeParam :=
  g.params.filterMap fun p => match p with
    | .ty t => some t
    | _ => none

/-- Embeds `Generics::const_params()`: the const parameters in order. -/
def const_params (g : Generics) : List ConstParam :=
  g.params.filterMap fun p => match p with
    | .cst c => some c
    | _ => none

/-- The identifiers of the type parameters, in order. -/
def type_param_idents (g : Generics) : List String :=
  (type_params g).map TypeParam.ident

/-- The non-lifetime parameters in order (types and consts interleaved as in
the input). -/
def nonLifetimeParams (g : Generics) : List GenericParam :=
  g.params.filter fun p => !isLtParam p

/-- Embeds `ToTokens for syn::Generics` (used by `pub trait Sealed #trait_generics`):
syn prints all lifetimes first, then the type and const parameters in their
original relative order, each parameter in full (bounds and defaults kept).
The where-clause is not part of this printing. -/
def genericsToTokens (g : Generics) : List GenericParam :=
  (lifetimeDefs g).map GenericParam.lt ++ nonLifetimeParams g

/-- Strip the default of a type or const parameter, keeping its bounds. -/
def stripDefault : GenericParam → GenericParam
  | .lt l => .lt l
  | .ty t => .ty { t with default := none }
  | .cst c => .cst { c with default := none }

/-- Embeds `ToTokens for syn::ImplGenerics`, the first component of
`Generics::split_for_impl` (used as `impl #trait_generics ...`): syn prints
all lifetimes first, then the type and const parameters in their original
relative order, keeping each type parameter's colon bounds and dropping only
the defaults. -/
def implGenericsToTokens (g : Generics) : List GenericParam :=
  ((lifetimeDefs g).map GenericParam.lt ++ nonLifetimeParams g).map stripDefault

/-! ## Paths, items -/

/-- Embeds `syn::PathSegment`: an identifier with its (opaque) generic arguments. -/
structure PathSegment where
  ident : Ident
  args : List String
  deriving DecidableEq, Repr

/-- The trait path of an `impl Trait for Type` block.  `syn` guarantees such
a path has at least one segment, which the embedding records by splitting it
into the leading segments and the final one. -/
structure TraitPath where
  front : List PathSegment
  last : PathSegment
  deriving DecidableEq, Repr

/-- A supertrait bound: either a trait path (the shape the transformation
appends) or an opaque pre-existing bound such as a lifetime. -/
inductive SupertraitBound where
  | traitBound (segments : List PathSegment)
  | otherBound (tokens : String)
  deriving DecidableEq, Repr

/-- Embeds `syn::ItemTrait`: the fields the transformation reads or writes, plus the
parts it only reprints (attributes, visibility, unsafety and the item body),
kept opaque. -/
structure ItemTrait where
  ident : Ident
  generics : Generics
  supertraits : List SupertraitBound
  vis : String
  body : String
  deriving DecidableEq, Repr

/-- Embeds `syn::ItemImpl`: the fields the transformation reads, plus the parts it
only reprints, kept opaque.  `trait_` is `none` for an inherent impl. -/
structure ItemImpl where
  generics : Generics
  trait_ : Option TraitPath
  self_ty : String
  body : String
  deriving DecidableEq, Repr

/-- Embeds `syn::Item` as the dispatcher sees it: an impl block, a trait
declaration, or any other item kind (opaque). -/
inductive Item where
  | «impl» (i : ItemImpl)
  | traitDecl (t : ItemTrait)
  | other (tokens : String)
  deriving DecidableEq, Repr

/-! ## Outputs and errors -/

/-- The diagnostics the entry point can produce. -/
inductive SealedError where
  | invalidArgument (arg : Ident)
  | expectedImplOrTrait
  | missingImplTrait
  deriving DecidableEq, Repr

/-- Embeds `const TRAIT_ERASURE_ARG_IDENT` (`src/lib.rs:71`). -/
def TRAIT_ERASURE_ARG_IDENT : String := "erase"

/-- The message text of each diagnostic, as formatted by the source. -/
def SealedError.message : SealedError → String
  | .invalidArgument _ =>
      "The only accepted argument is `" ++ TRAIT_ERASURE_ARG_IDENT ++ "`."
  | .expectedImplOrTrait => "expected impl or trait"
  | .missingImplTrait => "missing implentation trait"

/-- The generated companion `Sealed` implementation, as the tokens
`impl #trait_generics #sealed_path #arguments for #self_type #where_clauses`
lay it out: printed impl generics, the rebuilt path, the original trailing
generic arguments re-attached after the path, the self type and the
where-clause.  Its body is empty. -/
structure SealedImplOut where
  generics : List GenericParam
  path : List PathSegment
  args : List String
  self_ty : String
  where_clause : Option String
  deriving DecidableEq, Repr

/-- One item of the produced token stream. -/
inductive OutputItem where
  /-- The companion module: its name, whether its body opens with
  `use super::*;` (the standard-mode branch does, the erasure-mode branch
  does not), and the generic parameter list of the inner `Sealed` trait. -/
  | sealModule (name : String) (use_super : Bool) (sealed_params : List GenericParam)
  /-- The (amended) trait declaration. -/
  | traitItem (t : ItemTrait)
  /-- The generated companion `Sealed` implementation. -/
  | implOut (o : SealedImplOut)
  /-- The original impl block, reprinted unchanged. -/
  | origImpl (i : ItemImpl)
  deriving DecidableEq, Repr

/-! ## The transformation (`src/lib.rs:74-187`) -/

/-- Embeds `fn parse_sealed_trait` (`src/lib.rs:118-159`).  Derives the companion
name from the unrawed trait identifier, appends the
`#seal::Sealed<type params>` supertrait, and emits the companion module
followed by the amended declaration.  In erasure mode the inner `Sealed`
trait's parameters are the lifetimes, then every type parameter relaxed to
`ident : ?Sized`, then the const parameters; in standard mode they are the
declaration's generics as `syn` prints them. -/
def parse_sealed_trait (item_trait : ItemTrait) (erase : Bool) : List OutputItem :=
  let sealId := seal_name item_trait.ident.unraw.display
  let sealedBound : SupertraitBound :=
    .traitBound [⟨⟨sealId, false⟩, []⟩, ⟨⟨"Sealed", false⟩, type_param_idents item_trait.generics⟩]
  let amended : ItemTrait :=
    { item_trait with supertraits := item_trait.supertraits ++ [sealedBound] }
  if erase then
    let sealedParams :=
      (lifetimeDefs item_trait.generics).map GenericParam.lt
        ++ (type_params item_trait.generics).map (fun t => GenericParam.ty ⟨t.ident, ["?Sized"], none⟩)
        ++ (const_params item_trait.generics).map GenericParam.cst
    [.sealModule sealId false sealedParams, .traitItem amended]
  else
    [.sealModule sealId true (genericsToTokens item_trait.generics), .traitItem amended]

/-- Embeds `fn parse_sealed_impl` (`src/lib.rs:161-187`).  Fails on an inherent
impl; otherwise pops the last trait-path segment, derives the companion name
from its unrawed identifier, rebuilds the path as
`front :: seal :: Sealed` with the original trailing arguments re-attached,
and emits the companion implementation followed by the untouched original
block.  The companion's generics are printed through `split_for_impl`'s
`ImplGenerics`, which keeps the parameters' bounds and drops only their
defaults. -/
def parse_sealed_impl (item_impl : ItemImpl) : Except SealedError (List OutputItem) :=
  match item_impl.trait_ with
  | none => .error .missingImplTrait
  | some tp =>
    let sealId := seal_name tp.last.ident.unraw.display
    let sealed_path :=
      tp.front ++ [⟨⟨sealId, false⟩, []⟩, ⟨⟨"Sealed", false⟩, []⟩]
    .ok [.implOut
          { generics := implGenericsToTokens item_impl.generics
            path := sealed_path
            args := tp.last.args
            self_ty := item_impl.self_ty
            where_clause := item_impl.generics.where_clause },
         .origImpl item_impl]

/-- Embeds `fn parse_sealed` (`src/lib.rs:106-115`): dispatch on the item kind. -/
def parse_sealed (item : Item) (erase : Bool) : Except SealedError (List OutputItem) :=
  match item with
  | .impl item_impl => parse_sealed_impl item_impl
  | .traitDecl item_trait => .ok (parse_sealed_trait item_trait erase)
  | .other _ => .error .expectedImplOrTrait

/-- Embeds `fn sealed` (`src/lib.rs:74-100`): validate the optional argument, then
dispatch. -/
def sealed (args : Option Ident) (input : Item) : Except SealedError (List OutputItem) :=
  match args with
  | some erased =>
    if erased.eqKeyword TRAIT_ERASURE_ARG_IDENT then
      parse_sealed input true
    else
      .error (.invalidArgument erased)
  | none => parse_sealed input false

/-! ## Extractors used by the theorem statements -/

/-- The companion-module name of a trait-transformation output. -/
def moduleNameOf : List OutputItem → String
  | .sealModule s _ _ :: _ => s
  | _ => ""

/-- The inner `Sealed` trait's generic parameters of a trait-transformation
output. -/
def moduleParamsOf : List OutputItem → List GenericParam
  | .sealModule _ _ ps :: _ => ps
  | _ => []

/-- The companion implementation of an impl-transformation result. -/
def implOutOf : Except SealedError (List OutputItem) → SealedImplOut
  | .ok (.implOut o :: _) => o
  | _ => ⟨[], [], [], "", none⟩

/-- Whether a transformation result is a diagnostic. -/
def isError : Except SealedError (List OutputItem) → Bool
  | .error _ => true
  | .ok _ => false

/-! ## Concrete example inputs used by witnesses and counterexamples -/

/-- A plain trait declaration named `MyTrait`. -/
def exTraitA : ItemTrait := ⟨⟨"MyTrait", false⟩, ⟨[], none⟩, [], "pub", ""⟩

/-- A trait path `m::MyTrait<u8>` with a leading segment and trailing
arguments. -/
def exPathA : TraitPath := ⟨[⟨⟨"m", false⟩, []⟩], ⟨⟨"MyTrait", false⟩, ["u8"]⟩⟩

/-- An impl block `impl m::MyTrait<u8> for A`. -/
def exImplA : ItemImpl := ⟨⟨[], none⟩, some exPathA, "A", "fn f()"⟩

/-- A trait declaration with generics corresponding to
`Tr<'a, T: Bound, const N: usize>`. -/
def exTraitB : ItemTrait :=
  ⟨⟨"Tr", false⟩,
   ⟨[GenericParam.lt ⟨"a", []⟩, GenericParam.ty ⟨"T", ["Bound"], none⟩,
     GenericParam.cst ⟨"N", "usize", none⟩], none⟩,
   [], "", ""⟩

/-- An impl block `impl<U> T for B<U> where U: Clone`. -/
def exImplB : ItemImpl :=
  ⟨⟨[GenericParam.ty ⟨"U", [], none⟩], some "U: Clone"⟩,
   some ⟨[], ⟨⟨"T", false⟩, []⟩⟩, "B<U>", ""⟩

/-- A trait declaration named `X` with no generics. -/
def exTraitC : ItemTrait := ⟨⟨"X", false⟩, ⟨[], none⟩, [], "", ""⟩

/-- An inherent impl block `impl A` (names no trait). -/
def inherentImpl : ItemImpl := ⟨⟨[], none⟩, none, "A", ""⟩

/-- The impl block `impl<T: Bound> Trait for Wrapper<T>`. -/
def c1Impl : ItemImpl :=
  ⟨⟨[GenericParam.ty ⟨"T", ["Bound"], none⟩], none⟩,
   some ⟨[], ⟨⟨"Trait", false⟩, []⟩⟩, "Wrapper<T>", ""⟩

/-- A trait declaration with generics `Tr<const N: usize, T>`: a const
parameter declared before a type parameter, which is legal Rust. -/
def c8Trait : ItemTrait :=
  ⟨⟨"Tr", false⟩,
   ⟨[GenericParam.cst ⟨"N", "usize", none⟩, GenericParam.ty ⟨"T", [], none⟩], none⟩,
   [], "", ""⟩

/-! ## Helper lemmas -/

@[simp]
theorem paramIdent_lt (l : LifetimeDef) : paramIdent (.lt l) = l.name := rfl

@[simp]
theorem paramIdent_ty (t : TypeParam) : paramIdent (.ty t) = t.ident := rfl

@[simp]
theorem paramIdent_cst (c : ConstParam) : paramIdent (.cst c) = c.ident := rfl

theorem lifetimeDefs_map (g : Generics) :
    (lifetimeDefs g).map GenericParam.lt = g.params.filter isLtParam := by
  rcases g with ⟨ps, wc⟩
  simp only [lifetimeDefs]
  induction ps with
  | nil => rfl
  | cons p ps ih => cases p <;> simp_all [List.filterMap_cons, List.filter_cons, isLtParam]

theorem type_params_map (g : Generics) :
    (type_params g).map GenericParam.ty = g.params.filter isTyParam := by
  rcases g with ⟨ps, wc⟩
  simp only [type_params]
  induction ps with
  | nil => rfl
  | cons p ps ih => cases p <;> simp_all [List.filterMap_cons, List.filter_cons, isTyParam]

theorem const_params_map (g : Generics) :
    (const_params g).map GenericParam.cst = g.params.filter isCstParam := by
  rcases g with ⟨ps, wc⟩
  simp only [const_params]
  induction ps with
  | nil => rfl
  | cons p ps ih => cases p <;> simp_all [List.filterMap_cons, List.filter_cons, isCstParam]

theorem display_eq_erase_iff (a : Ident) :
    a.display = TRAIT_ERASURE_ARG_IDENT ↔ a.raw = false ∧ a.text = TRAIT_ERASURE_ARG_IDENT := by
  rcases a with ⟨t, r⟩
  cases r
  · simp [Ident.display, TRAIT_ERASURE_ARG_IDENT]
  · rw [show Ident.display ⟨t, true⟩ = "r#" ++ t from rfl]
    constructor
    · intro h
      exfalso
      have h3 := congrArg String.data h
      simp [TRAIT_ERASURE_ARG_IDENT] at h3
    · rintro ⟨h, -⟩
      exact Bool.noConfusion h

theorem eqKeyword_iff_display (a : Ident) :
    a.eqKeyword TRAIT_ERASURE_ARG_IDENT = true ↔ a.display = TRAIT_ERASURE_ARG_IDENT := by
  rw [display_eq_erase_iff]
  rcases a with ⟨t, r⟩
  cases r <;> simp [Ident.eqKeyword]

/-! ## Claim theorems -/

/-- C1 (code bug): for the implementation block `impl<T: Bound> Trait for
Wrapper<T>`, the generated companion implementation is
`impl<T: Bound> __seal_trait::Sealed for Wrapper<T>` — the bound on the
introduced type parameter is KEPT, not dropped.  The source prints the
companion generics through `split_for_impl`'s first component
(`ImplGenerics`), whose token output keeps every parameter's colon bounds and
drops only defaults, contradicting both the specification and the code's own
comment "Only keep the introduced params (no bounds)" (`src/lib.rs:178-179`).
The where-clauses are kept and the body is empty, as claimed. -/
theorem impl_generics_keep_bounds_at_failing_input :
    parse_sealed_impl c1Impl =
      .ok [OutputItem.implOut
            { generics := [GenericParam.ty ⟨"T", ["Bound"], none⟩],
              path := [⟨⟨"__seal_trait", false⟩, []⟩, ⟨⟨"Sealed", false⟩, []⟩],
              args := [],
              self_ty := "Wrapper<T>",
              where_clause := none },
           OutputItem.origImpl c1Impl]
    ∧ (implOutOf (parse_sealed_impl c1Impl)).generics ≠
        [GenericParam.ty ⟨"T", [], none⟩] := by
  constructor
  · rfl
  · decide

/-- C2: for a trait named `X` and an implementation block whose trait path
ends in a segment with the same unescaped identifier text, the companion
identifier referenced by the impl transformation is exactly the module name
produced by the trait transformation; and the derivation is a deterministic
function of the unescaped identifier text alone. -/
theorem companion_name_agreement :
    (∀ (t : ItemTrait) (i : ItemImpl) (tp : TraitPath) (erase : Bool),
        i.trait_ = some tp →
        tp.last.ident.unraw.text = t.ident.unraw.text →
        (implOutOf (parse_sealed_impl i)).path =
          tp.front ++
            [⟨⟨moduleNameOf (parse_sealed_trait t erase), false⟩, []⟩,
             ⟨⟨"Sealed", false⟩, []⟩])
    ∧ ∀ a b : Ident, a.unraw.text = b.unraw.text →
        seal_name a.unraw.display = seal_name b.unraw.display := by
  constructor
  · intro t i tp erase h1 h2
    have hmod : moduleNameOf (parse_sealed_trait t erase)
        = seal_name t.ident.unraw.display := by
      cases erase <;> rfl
    have hdisp : tp.last.ident.unraw.display = t.ident.unraw.display := h2
    rw [hmod, ← hdisp]
    simp [parse_sealed_impl, h1, implOutOf]
  · intro a b h
    exact congrArg seal_name h

/-- C2 witness: the agreement at `trait MyTrait` /
`impl m::MyTrait<u8> for A`, and determinism across the raw and plain
spellings of `MyTrait`. -/
theorem companion_name_agreement_witness :
    (implOutOf (parse_sealed_impl exImplA)).path =
      exPathA.front ++
        [⟨⟨moduleNameOf (parse_sealed_trait exTraitA false), false⟩, []⟩,
         ⟨⟨"Sealed", false⟩, []⟩]
    ∧ seal_name (Ident.unraw ⟨"MyTrait", true⟩).display
        = seal_name (Ident.unraw ⟨"MyTrait", false⟩).display :=
  ⟨companion_name_agreement.1 exTraitA exImplA exPathA false rfl rfl,
   companion_name_agreement.2 ⟨"MyTrait", true⟩ ⟨"MyTrait", false⟩ rfl⟩

/-- C3: the name deriver maps any identifier text to the fixed prefix
followed by the lower-snake-case conversion of the text; `MyTrait` maps to
`__seal_my_trait` and `HTTPTrait` maps to `__seal_http_trait` (the acronym
treated as one word). -/
theorem seal_name_spec :
    seal_name "MyTrait" = "__seal_my_trait"
    ∧ seal_name "HTTPTrait" = "__seal_http_trait"
    ∧ ∀ s : String, seal_name s = "__seal_" ++ to_snake_case s :=
  ⟨rfl, rfl, fun _ => rfl⟩

/-- C4: for a trait declaration with generic parameters
`<'a, T: Bound, const N: usize>`, the companion marker trait's parameter
list is exactly the same list in standard mode, and in erasure mode it is
`<'a, T: ?Sized, const N: usize>` — the type parameter's bound dropped and
`?Sized` added, lifetimes and const parameters unchanged. -/
theorem trait_generic_fidelity :
    ∀ (t : ItemTrait) (b : String),
      t.generics.params =
        [GenericParam.lt ⟨"a", []⟩, GenericParam.ty ⟨"T", [b], none⟩,
         GenericParam.cst ⟨"N", "usize", none⟩] →
      moduleParamsOf (parse_sealed_trait t false) =
        [GenericParam.lt ⟨"a", []⟩, GenericParam.ty ⟨"T", [b], none⟩,
         GenericParam.cst ⟨"N", "usize", none⟩]
      ∧ moduleParamsOf (parse_sealed_trait t true) =
        [GenericParam.lt ⟨"a", []⟩, GenericParam.ty ⟨"T", ["?Sized"], none⟩,
         GenericParam.cst ⟨"N", "usize", none⟩] := by
  intro t b h
  constructor
  · simp [parse_sealed_trait, moduleParamsOf, genericsToTokens, lifetimeDefs,
          nonLifetimeParams, isLtParam, h]
  · simp [parse_sealed_trait, moduleParamsOf, lifetimeDefs, type_params,
          const_params, h]

/-- C4 witness: the fidelity statement evaluated at the concrete trait
`Tr<'a, T: Bound, const N: usize>`. -/
theorem trait_generic_fidelity_witness :
    moduleParamsOf (parse_sealed_trait exTraitB false) =
      [GenericParam.lt ⟨"a", []⟩, GenericParam.ty ⟨"T", ["Bound"], none⟩,
       GenericParam.cst ⟨"N", "usize", none⟩]
    ∧ moduleParamsOf (parse_sealed_trait exTraitB true) =
      [GenericParam.lt ⟨"a", []⟩, GenericParam.ty ⟨"T", ["?Sized"], none⟩,
       GenericParam.cst ⟨"N", "usize", none⟩] :=
  trait_generic_fidelity exTraitB "Bound" rfl

/-- C5: the trait transformer appends exactly one supertrait bound,
referencing `seal::Sealed` applied positionally to the declaration's
type-parameter identifiers only, and otherwise leaves the declaration
unchanged (same identifier, generics, visibility and body). -/
theorem trait_supertrait_injection :
    ∀ (t : ItemTrait) (erase : Bool),
      ∃ nm useSuper ps,
        parse_sealed_trait t erase =
          [OutputItem.sealModule nm useSuper ps,
           OutputItem.traitItem
             { t with supertraits := t.supertraits ++
                 [SupertraitBound.traitBound
                   [⟨⟨seal_name t.ident.unraw.display, false⟩, []⟩,
                    ⟨⟨"Sealed", false⟩, type_param_idents t.generics⟩]] }] := by
  intro t erase
  cases erase
  · exact ⟨_, _, _, rfl⟩
  · exact ⟨_, _, _, rfl⟩

/-- C6: the transformation fails exactly when the argument is present with
text other than the keyword `erase`, or the item is neither a trait
declaration nor an impl block, or the item is an impl block naming no trait;
each failure carries the corresponding diagnostic (the invalid-argument one
naming the only accepted keyword), and success and failure are exclusive by
construction of the result type. -/
theorem sealed_failure_characterization :
    ∀ (args : Option Ident) (input : Item),
      (isError (sealed args input) = true ↔
        (∃ a, args = some a ∧ a.display ≠ TRAIT_ERASURE_ARG_IDENT)
        ∨ (∃ tokens, input = Item.other tokens)
        ∨ (∃ i, input = Item.impl i ∧ i.trait_ = none))
      ∧ (∀ a, args = some a → a.display ≠ TRAIT_ERASURE_ARG_IDENT →
          sealed args input = .error (SealedError.invalidArgument a)
          ∧ (SealedError.invalidArgument a).message
              = "The only accepted argument is `erase`.")
      ∧ (∀ tokens, input = Item.other tokens →
          (args = none ∨ args = some ⟨TRAIT_ERASURE_ARG_IDENT, false⟩) →
          sealed args input = .error SealedError.expectedImplOrTrait
          ∧ SealedError.expectedImplOrTrait.message = "expected impl or trait")
      ∧ (∀ i, input = Item.impl i → i.trait_ = none →
          (args = none ∨ args = some ⟨TRAIT_ERASURE_ARG_IDENT, false⟩) →
          sealed args input = .error SealedError.missingImplTrait) := by
  intro args input
  refine ⟨?_, ?_, ?_, ?_⟩
  · rcases args with _ | a
    · rcases input with i | t | tok
      · rcases h : i.trait_ with _ | tp <;>
          simp [sealed, parse_sealed, parse_sealed_impl, h, isError]
      · simp [sealed, parse_sealed, isError]
      · simp [sealed, parse_sealed, isError]
    · by_cases hk : a.eqKeyword TRAIT_ERASURE_ARG_IDENT = true
      · have hd : a.display = TRAIT_ERASURE_ARG_IDENT := (eqKeyword_iff_display a).mp hk
        rcases input with i | t | tok
        · rcases h : i.trait_ with _ | tp <;>
            simp [sealed, hk, parse_sealed, parse_sealed_impl, h, isError, hd]
        · simp [sealed, hk, parse_sealed, isError, hd]
        · simp [sealed, hk, parse_sealed, isError, hd]
      · have hk' : a.eqKeyword TRAIT_ERASURE_ARG_IDENT = false := by
          simpa using hk
        have hd : a.display ≠ TRAIT_ERASURE_ARG_IDENT := fun h =>
          hk ((eqKeyword_iff_display a).mpr h)
        simp [sealed, hk', isError, hd]
  · intro a ha hd
    subst ha
    have hk' : a.eqKeyword TRAIT_ERASURE_ARG_IDENT = false := by
      rcases hb : a.eqKeyword TRAIT_ERASURE_ARG_IDENT with _ | _
      · rfl
      · exact absurd ((eqKeyword_iff_display a).mp hb) hd
    refine ⟨by simp [sealed, hk'], ?_⟩
    rfl
  · intro tok hi hargs
    subst hi
    rcases hargs with h | h <;> subst h <;>
      exact ⟨by simp [sealed, Ident.eqKeyword, parse_sealed, TRAIT_ERASURE_ARG_IDENT], rfl⟩
  · intro i hi ht hargs
    subst hi
    rcases hargs with h | h <;> subst h <;>
      simp [sealed, Ident.eqKeyword, parse_sealed, parse_sealed_impl, ht, TRAIT_ERASURE_ARG_IDENT]

/-- C6 witness: the three failure modes at concrete inputs. -/
theorem sealed_failure_characterization_witness :
    sealed (some ⟨"foo", false⟩) (Item.traitDecl exTraitC) =
      .error (SealedError.invalidArgument ⟨"foo", false⟩)
    ∧ sealed none (Item.other "fn main") = .error SealedError.expectedImplOrTrait
    ∧ sealed none (Item.impl inherentImpl) = .error SealedError.missingImplTrait :=
  ⟨((sealed_failure_characterization (some ⟨"foo", false⟩)
      (Item.traitDecl exTraitC)).2.1 ⟨"foo", false⟩ rfl (by decide)).1,
   ((sealed_failure_characterization none (Item.other "fn main")).2.2.1
      "fn main" rfl (Or.inl rfl)).1,
   (sealed_failure_characterization none (Item.impl inherentImpl)).2.2.2
      inherentImpl rfl rfl (Or.inl rfl)⟩

/-- C7: for a trait input the emitted sequence is the companion module
followed by the amended declaration; for a trait-implementation input it is
the generated `Sealed` implementation followed by the original block, which
is reproduced as the very input value, hence unchanged. -/
theorem output_ordering_frame :
    (∀ (t : ItemTrait) (erase : Bool),
        ∃ nm useSuper ps amended,
          parse_sealed_trait t erase =
            [OutputItem.sealModule nm useSuper ps, OutputItem.traitItem amended])
    ∧ ∀ (i : ItemImpl) (tp : TraitPath),
        i.trait_ = some tp →
        parse_sealed_impl i =
          .ok [OutputItem.implOut (implOutOf (parse_sealed_impl i)),
               OutputItem.origImpl i] := by
  constructor
  · intro t erase
    cases erase
    · exact ⟨_, _, _, _, rfl⟩
    · exact ⟨_, _, _, _, rfl⟩
  · intro i tp h
    simp [parse_sealed_impl, h, implOutOf]

/-- C7 witness: the impl-side frame at the concrete block
`impl<U> T for B<U> where U: Clone`. -/
theorem output_ordering_frame_witness :
    parse_sealed_impl exImplB =
      .ok [OutputItem.implOut (implOutOf (parse_sealed_impl exImplB)),
           OutputItem.origImpl exImplB] :=
  output_ordering_frame.2 exImplB ⟨[], ⟨⟨"T", false⟩, []⟩⟩ rfl

/-- C8 counterexample: for the trait `Tr<const N: usize, T>` (a const
parameter declared before a type parameter, which is legal Rust) the
erasure-mode companion trait's parameters come out as `<T: ?Sized,
const N: usize>`: the erase branch regroups the parameters as lifetimes,
then type parameters, then const parameters, so the relative order of `N`
and `T` is NOT preserved, refuting the claim as stated. -/
theorem erase_param_order_counterexample :
    ¬ (moduleParamsOf (parse_sealed_trait c8Trait true)).map paramIdent
        = c8Trait.generics.params.map paramIdent := by
  decide

/-- C8 amended: in standard mode the companion trait's parameters are the
lifetimes followed by the remaining parameters in their original relative
order (syn prints lifetimes first; legal Rust declares them first anyway, so
the original order is preserved there); in erasure mode the parameters are
regrouped as lifetimes, then type parameters, then const parameters, each
group keeping its original relative order. -/
theorem generic_param_order_amended :
    ∀ t : ItemTrait,
      (moduleParamsOf (parse_sealed_trait t false)).map paramIdent =
        (t.generics.params.filter isLtParam
          ++ t.generics.params.filter (fun p => !isLtParam p)).map paramIdent
      ∧ (moduleParamsOf (parse_sealed_trait t true)).map paramIdent =
        (t.generics.params.filter isLtParam
          ++ t.generics.params.filter isTyParam
          ++ t.generics.params.filter isCstParam).map paramIdent := by
  intro t
  constructor
  · have h1 : moduleParamsOf (parse_sealed_trait t false)
        = genericsToTokens t.generics := rfl
    rw [h1]
    unfold genericsToTokens nonLifetimeParams
    rw [← lifetimeDefs_map]
  · have h1 : moduleParamsOf (parse_sealed_trait t true)
        = (lifetimeDefs t.generics).map GenericParam.lt
            ++ (type_params t.generics).map (fun x => GenericParam.ty ⟨x.ident, ["?Sized"], none⟩)
            ++ (const_params t.generics).map GenericParam.cst := rfl
    rw [h1, ← lifetimeDefs_map, ← type_params_map, ← const_params_map]
    simp [List.map_map, Function.comp]

/-- C9: the erase flag has no effect on the impl transformation — invoking
the entry point on an impl block with the `erase` argument gives the same
result as invoking it with no argument. -/
theorem erase_flag_impl_noop :
    ∀ i : ItemImpl,
      sealed (some ⟨TRAIT_ERASURE_ARG_IDENT, false⟩) (Item.impl i)
        = sealed none (Item.impl i) := by
  intro i
  rfl

/-- C10: argument validation precedes item-kind dispatch — whenever the
argument is present with text other than `erase`, the result is the
invalid-argument diagnostic and is independent of the input item, so the
item kind is never examined. -/
theorem arg_validation_precedes_dispatch :
    ∀ (a : Ident) (input input' : Item),
      a.display ≠ TRAIT_ERASURE_ARG_IDENT →
      sealed (some a) input = .error (SealedError.invalidArgument a)
      ∧ sealed (some a) input = sealed (some a) input' := by
  intro a input input' hd
  have hk' : a.eqKeyword TRAIT_ERASURE_ARG_IDENT = false := by
    rcases hb : a.eqKeyword TRAIT_ERASURE_ARG_IDENT with _ | _
    · rfl
    · exact absurd ((eqKeyword_iff_display a).mp hb) hd
  constructor <;> simp [sealed, hk']

/-- C10 witness: a bad argument yields the invalid-argument diagnostic
regardless of whether the item is a function-like item or a trait. -/
theorem arg_validation_precedes_dispatch_witness :
    sealed (some ⟨"foo", false⟩) (Item.other "fn f()") =
      .error (SealedError.invalidArgument ⟨"foo", false⟩)
    ∧ sealed (some ⟨"foo", false⟩) (Item.other "fn f()")
        = sealed (some ⟨"foo", false⟩) (Item.traitDecl exTraitA) :=
  arg_validation_precedes_dispatch ⟨"foo", false⟩ (Item.other "fn f()")
    (Item.traitDecl exTraitA) (by decide)

end SealedCrate
